import Mathlib

/-!
Shallow embedding of the webhook-verification and message-formatting core of
`linear-tracker` (TypeScript).

Sources embedded:
- `src/utils/webhook-security.ts` : `verifyLinearSignature`, `verifyWebhookTimestamp`.
- `src/utils/message-formatter.ts` : the third (latest, authoritative) draft of the
  formatter (file lines 404-612): `escapeMarkdown`, `getPriorityLabel`,
  `formatIssueMessage`, `formatCommentMessage`, `formatProjectMessage`,
  `formatGenericMessage`, `getEntityIcon`, `formatLinearWebhookMessage`.
- `src/types/linear.ts` : the payload data model.

Modelling conventions:
- JS strings are `List Char` (named `Str`); `substring(0, n)` is `List.take n`,
  `.length` is `List.length` (UTF-16 code-unit vs scalar-count differences are
  out of scope; the claims all speak of characters).
- Byte buffers are `List Nat` with entries `< 256`.
- Fields that may be `undefined` at runtime (the TS code casts `payload.data`
  without checking it) are `Option`; JS truthiness of a string is "defined and
  non-empty", of a number "defined and non-zero".
- TS code that can throw is embedded in `Except Unit`; a `try`/`catch` becomes a
  `match` on the `Except`.  Calling `.replace` or `.length` on `undefined`
  throws in JS, hence `Option` arguments to those operations map `none` to
  `Except.error ()`.
- `crypto.createHmac('sha256', secret).update(body).digest()` is an external
  library call; it is modelled as an explicit function parameter
  `hmac : List Nat → List Nat → List Nat` (secret, body ↦ digest).  The real
  digest is always 32 bytes, each `< 256`; theorems carry that as a hypothesis
  where needed.
- `Buffer.from(s, 'hex')` never throws in Node; it decodes hex pairs and stops
  at the first invalid pair (documented data-truncation behaviour); `hexDecode`
  below reproduces that.
- `Date.now()` (in `verifyWebhookTimestamp`) is passed as the explicit `now`
  argument, and `formatDate` (which delegates to the JS `Date` locale library)
  is an explicit parameter `fmtDate` of the issue formatter.
- Envelope fields the formatter never reads (`createdAt`, `webhookId`,
  `organizationId`, ...) are omitted from the payload structure.
-/

namespace LinearTracker

abbrev Str := List Char

instance instDecEqExcept {ε α : Type} [DecidableEq ε] [DecidableEq α] :
    DecidableEq (Except ε α) := fun x y =>
  match x, y with
  | Except.ok a, Except.ok b =>
    match decEq a b with
    | Decidable.isTrue h => Decidable.isTrue (congrArg Except.ok h)
    | Decidable.isFalse h => Decidable.isFalse (fun hx => h (Except.ok.inj hx))
  | Except.error a, Except.error b =>
    match decEq a b with
    | Decidable.isTrue h => Decidable.isTrue (congrArg Except.error h)
    | Decidable.isFalse h => Decidable.isFalse (fun hx => h (Except.error.inj hx))
  | Except.ok _, Except.error _ => Decidable.isFalse (fun hx => Except.noConfusion hx)
  | Except.error _, Except.ok _ => Decidable.isFalse (fun hx => Except.noConfusion hx)

/-! ## webhook-security.ts -/

/-- hexChar gives the lowercase hex digit for a nibble, as produced by
Buffer.toString('hex') / the hex encoding of a digest. -/
def hexChar (n : Nat) : Char :=
  if n < 10 then Char.ofNat (48 + n) else Char.ofNat (87 + n)

/-- byteToHex encodes one byte as two lowercase hex digits. -/
def byteToHex (b : Nat) : Str :=
  [hexChar (b / 16), hexChar (b % 16)]

/-- hexEncode is the lowercase hexadecimal encoding of a byte sequence. -/
def hexEncode : List Nat → Str
  | [] => []
  | b :: rest => byteToHex b ++ hexEncode rest

/-- hexVal decodes a single hex digit (case-insensitive, as Node accepts). -/
def hexVal (c : Char) : Option Nat :=
  if 48 ≤ c.toNat ∧ c.toNat ≤ 57 then some (c.toNat - 48)
  else if 97 ≤ c.toNat ∧ c.toNat ≤ 102 then some (c.toNat - 87)
  else if 65 ≤ c.toNat ∧ c.toNat ≤ 70 then some (c.toNat - 55)
  else none

/-- hexDecode models Node's `Buffer.from(s, 'hex')`: decode pairs of hex digits,
stopping (without error) at the first invalid or incomplete pair. -/
def hexDecode : Str → List Nat
  | c1 :: c2 :: rest =>
    match hexVal c1, hexVal c2 with
    | some hi, some lo => (16 * hi + lo) :: hexDecode rest
    | _, _ => []
  | _ => []

/-- timingSafeEqual models `crypto.timingSafeEqual`: it throws (here
`Except.error`) when the buffers have different lengths, otherwise reports
byte-for-byte equality. -/
def timingSafeEqual (a b : List Nat) : Except Unit Bool :=
  if a.length = b.length then Except.ok (decide (a = b)) else Except.error ()

/-- verifyLinearSignature embeds `verifyLinearSignature` of
`webhook-security.ts` (lines 7-28): reject a non-string header, hex-decode the
header, compute the HMAC digest of the raw body, and compare with
`timingSafeEqual` inside a `try`/`catch` that turns any throw into `false`. -/
def verifyLinearSignature (hmac : List Nat → List Nat → List Nat)
    (headerSignature : Option Str) (rawBody : List Nat) (secret : List Nat) : Bool :=
  match headerSignature with
  | none => false
  | some h =>
    let headerSignatureBuffer := hexDecode h
    let computedSignature := hmac secret rawBody
    match timingSafeEqual computedSignature headerSignatureBuffer with
    | Except.ok r => r
    | Except.error _ => false

/-- verifyWebhookTimestamp embeds `verifyWebhookTimestamp` of
`webhook-security.ts` (lines 34-40), with `Date.now()` passed explicitly as
`now`: accept iff `abs(now - webhookTimestamp) <= 60 * 1000`. -/
def verifyWebhookTimestamp (now webhookTimestamp : Int) : Bool :=
  let timeDifference := (now - webhookTimestamp).natAbs
  let maxAge := 60 * 1000
  decide (timeDifference ≤ maxAge)

/-! ## types/linear.ts (fields read by the formatter) -/

inductive LinearAction
  | create
  | update
  | remove
deriving DecidableEq, Repr

inductive LinearEntityType
  | Issue
  | Comment
  | IssueLabel
  | Project
  | ProjectUpdate
  | Document
  | Initiative
  | InitiativeUpdate
  | Cycle
  | Customer
  | CustomerRequest
  | User
  | Reaction
deriving DecidableEq, Repr

structure LinearActor where
  name : Str
deriving DecidableEq, Repr

structure LinearState where
  name : Option Str
deriving DecidableEq, Repr

structure LinearUser where
  name : Option Str
deriving DecidableEq, Repr

structure LinearParent where
  title : Option Str
deriving DecidableEq, Repr

/-- LinearData is the runtime shape of `payload.data`: the TS code casts it
unchecked to `LinearIssue`, `LinearComment` or `LinearProject`, so every field
any renderer reads is optional here (absent models `undefined`). -/
structure LinearData where
  title : Option Str
  url : Option Str
  description : Option Str
  priority : Option Int
  dueDate : Option Str
  state : Option LinearState
  assignee : Option LinearUser
  creator : Option LinearUser
  parent : Option LinearParent
  body : Option Str
  name : Option Str
deriving DecidableEq, Repr

/-- UpdatedFromRec models `payload.updatedFrom : Record<string, unknown>` as the
formatter reads it: `state := none` means the `'state'` key is absent,
`state := some none` means the key is present with a falsy value (e.g. `null`),
`state := some (some st)` means the key holds an object. -/
structure UpdatedFromRec where
  state : Option (Option LinearState)
deriving DecidableEq, Repr

structure LinearWebhookPayload where
  action : LinearAction
  type : LinearEntityType
  actor : LinearActor
  data : LinearData
  updatedFrom : Option UpdatedFromRec
deriving DecidableEq, Repr

/-! ## message-formatter.ts (third draft, lines 404-612) -/

/-- isReserved holds of the characters matched by the regex
`[_*\[\]()~`>#+=|{}.!-]` in `escapeMarkdown` (line 416). -/
def isReserved (c : Char) : Bool :=
  ("_*[]()~`>#+=|\x7b\x7d.!-".data).contains c

/-- escapeMarkdown embeds `escapeMarkdown` (lines 415-417): prefix a backslash
to every reserved character (`String.replace` with a global regex, i.e. a
per-character rewrite). -/
def escapeMarkdown : Str → Str
  | [] => []
  | c :: rest => (if isReserved c then ['\\', c] else [c]) ++ escapeMarkdown rest

/-- escapeMarkdownJs models calling `escapeMarkdown` on a possibly-`undefined`
JS value: `undefined.replace` throws. -/
def escapeMarkdownJs : Option Str → Except Unit Str
  | none => Except.error ()
  | some s => Except.ok (escapeMarkdown s)

/-- getPriorityLabel embeds `getPriorityLabel` (lines 423-436). -/
def getPriorityLabel (priority : Int) : Str :=
  match priority with
  | 1 => "Urgent".data
  | 2 => "High".data
  | 3 => "Medium".data
  | 4 => "Low".data
  | _ => "No priority".data

/-- jsStr is JS template-literal interpolation of a possibly-`undefined`
string: `undefined` renders as the text "undefined" without throwing. -/
def jsStr : Option Str → Str
  | some s => s
  | none => "undefined".data

/-- jsOrStr is the JS `x || y` fallback on a possibly-undefined string:
`y` is used when `x` is `undefined` or empty (falsy). -/
def jsOrStr (x : Option Str) (y : Str) : Str :=
  match x with
  | some s => if s = [] then y else s
  | none => y

/-- actionName is the string value of a `LinearAction`, as interpolated by
`${payload.action}`. -/
def actionName : LinearAction → Str
  | LinearAction.create => "create".data
  | LinearAction.update => "update".data
  | LinearAction.remove => "remove".data

/-- entityTypeName is the string value of a `LinearEntityType`, as interpolated
by `${payload.type}`. -/
def entityTypeName : LinearEntityType → Str
  | LinearEntityType.Issue => "Issue".data
  | LinearEntityType.Comment => "Comment".data
  | LinearEntityType.IssueLabel => "IssueLabel".data
  | LinearEntityType.Project => "Project".data
  | LinearEntityType.ProjectUpdate => "ProjectUpdate".data
  | LinearEntityType.Document => "Document".data
  | LinearEntityType.Initiative => "Initiative".data
  | LinearEntityType.InitiativeUpdate => "InitiativeUpdate".data
  | LinearEntityType.Cycle => "Cycle".data
  | LinearEntityType.Customer => "Customer".data
  | LinearEntityType.CustomerRequest => "CustomerRequest".data
  | LinearEntityType.User => "User".data
  | LinearEntityType.Reaction => "Reaction".data

/-- jsToLower models `String.prototype.toLowerCase` on the (ASCII) entity type
names. -/
def jsToLower (s : Str) : Str := s.map Char.toLower

/-- getEntityIcon embeds `getEntityIcon` (lines 572-591). -/
def getEntityIcon : LinearEntityType → Str
  | LinearEntityType.Issue => "🎯".data
  | LinearEntityType.Comment => "💬".data
  | LinearEntityType.Project => "📁".data
  | LinearEntityType.IssueLabel => "🏷️".data
  | LinearEntityType.Cycle => "🔄".data
  | LinearEntityType.User => "👤".data
  | LinearEntityType.Reaction => "❤️".data
  | _ => "📋".data

/-- issueActionText embeds the action-header selection of `formatIssueMessage`
(lines 458-465), including the sub-issue override on create. -/
def issueActionText (p : LinearWebhookPayload) : Str :=
  match p.action with
  | LinearAction.create =>
    if p.data.parent.isSome then "🔗 New sub-issue".data else "🎯 New issue".data
  | LinearAction.update => "🔄 Issue updated".data
  | LinearAction.remove => "🗑️ Issue removed".data

/-- creatorNameOf embeds `issue.creator?.name || payload.actor.name`
(line 470). -/
def creatorNameOf (p : LinearWebhookPayload) : Str :=
  jsOrStr (p.data.creator.bind LinearUser.name) p.actor.name

/-- issueTitleLine embeds the title line (line 471): escaped title as anchor
text, the raw URL as link target, and the escaped creator name. -/
def issueTitleLine (p : LinearWebhookPayload) (titleEsc : Str) : Str :=
  "[".data ++ titleEsc ++ "](".data ++ jsStr p.data.url ++ ") \\- ".data
    ++ escapeMarkdown (creatorNameOf p) ++ "\n".data

/-- parentSegment embeds the parent line (lines 474-476); reading
`parent.title` of a title-less parent makes `escapeMarkdown` throw. -/
def parentSegment : Option LinearParent → Except Unit Str
  | none => Except.ok []
  | some parent =>
    match escapeMarkdownJs parent.title with
    | Except.error e => Except.error e
    | Except.ok t => Except.ok ("↳ Parent: ".data ++ t ++ "\n".data)

/-- priorityPart embeds the priority metadata push (lines 481-485):
`if (issue.priority && issue.priority > 0)`. -/
def priorityPart (d : LinearData) : List Str :=
  match d.priority with
  | some pr =>
    if pr ≠ 0 ∧ 0 < pr then
      ["Priority: ".data ++ escapeMarkdown (getPriorityLabel pr)]
    else []
  | none => []

/-- duePart embeds the due-date metadata push (lines 488-491):
`if (issue.dueDate)`. -/
def duePart (fmtDate : Str → Str) (d : LinearData) : List Str :=
  match d.dueDate with
  | some s => if s = [] then [] else ["Due: ".data ++ escapeMarkdown (fmtDate s)]
  | none => []

/-- updHasStateKey embeds
`payload.updatedFrom && 'state' in payload.updatedFrom` (line 496). -/
def updHasStateKey (p : LinearWebhookPayload) : Bool :=
  match p.updatedFrom with
  | some r => r.state.isSome
  | none => false

/-- prevStateName embeds the truthiness chain
`previousState && previousState.name` (lines 497-499): the previous state name,
provided the `'state'` entry of `updatedFrom` is a truthy object with a truthy
(defined, non-empty) name. -/
def prevStateName (p : LinearWebhookPayload) : Option Str :=
  match p.updatedFrom with
  | some r =>
    match r.state with
    | some (some previousState) =>
      match previousState.name with
      | some n => if n = [] then none else some n
      | none => none
    | _ => none
  | none => none

/-- statusPart embeds the status metadata push (lines 493-505): only when the
issue has a state; a `[prev] \-\> [cur]` transition when the action is update
and `updatedFrom` holds a truthy previous state with a truthy name; the current
name alone when the update/has-state-key test fails; nothing otherwise. -/
def statusPart (p : LinearWebhookPayload) : Except Unit (List Str) :=
  match p.data.state with
  | none => Except.ok []
  | some st =>
    if p.action = LinearAction.update ∧ updHasStateKey p = true then
      match prevStateName p with
      | some previousStatus =>
        match escapeMarkdownJs st.name with
        | Except.error e => Except.error e
        | Except.ok cur =>
          Except.ok ["\\[".data ++ escapeMarkdown previousStatus
            ++ "\\] \\-\\> \\[".data ++ cur ++ "\\]".data]
      | none => Except.ok []
    else
      match escapeMarkdownJs st.name with
      | Except.error e => Except.error e
      | Except.ok cur => Except.ok [cur]

/-- issueMetadata embeds the `metadata` array built in lines 479-505, in push
order: priority, due date, status. -/
def issueMetadata (fmtDate : Str → Str) (p : LinearWebhookPayload) :
    Except Unit (List Str) :=
  match statusPart p with
  | Except.error e => Except.error e
  | Except.ok s => Except.ok (priorityPart p.data ++ duePart fmtDate p.data ++ s)

/-- issueMetadataSegment embeds lines 507-509: join the metadata fragments with
" • " and terminate the line, or emit nothing when the array is empty. -/
def issueMetadataSegment (metadata : List Str) : Str :=
  if metadata ≠ [] then List.intercalate (" • ".data) metadata ++ "\n".data else []

/-- assigneeSegment embeds the assignee line (lines 512-514). -/
def assigneeSegment : Option LinearUser → Except Unit Str
  | none => Except.ok []
  | some a =>
    match escapeMarkdownJs a.name with
    | Except.error e => Except.error e
    | Except.ok n => Except.ok ("👤 ".data ++ n ++ "\n".data)

/-- issueDescriptionSegment embeds the description paragraph (lines 517-522):
on create with a truthy description, truncate to 300 characters plus `...`
before escaping the whole excerpt. -/
def issueDescriptionSegment (action : LinearAction) (description : Option Str) : Str :=
  if action = LinearAction.create then
    match description with
    | some d =>
      if d = [] then []
      else
        let truncatedDescription :=
          if 300 < d.length then d.take 300 ++ "...".data else d
        "\n".data ++ escapeMarkdown truncatedDescription ++ "\n".data
    | none => []
  else []

/-- formatIssueMessage embeds `formatIssueMessage` (lines 454-525); the
sequential `message +=` accumulation is the concatenation of the segments in
source order, and any throw while a segment is built aborts the whole call. -/
def formatIssueMessage (fmtDate : Str → Str) (p : LinearWebhookPayload) :
    Except Unit Str :=
  match escapeMarkdownJs p.data.title with
  | Except.error e => Except.error e
  | Except.ok titleEsc =>
    match parentSegment p.data.parent with
    | Except.error e => Except.error e
    | Except.ok parentSeg =>
      match issueMetadata fmtDate p with
      | Except.error e => Except.error e
      | Except.ok metadata =>
        match assigneeSegment p.data.assignee with
        | Except.error e => Except.error e
        | Except.ok assigneeSeg =>
          Except.ok (issueActionText p ++ "\n".data
            ++ issueTitleLine p titleEsc
            ++ parentSeg
            ++ issueMetadataSegment metadata
            ++ assigneeSeg
            ++ issueDescriptionSegment p.action p.data.description)

/-- commentBodySegment embeds lines 535-540: on create or update, quote the
body truncated to 200 characters plus a pre-escaped `\.\.\.` marker, the whole
excerpt then being escaped; `comment.body.length` throws on an `undefined`
body. -/
def commentBodySegment (action : LinearAction) (body : Option Str) :
    Except Unit Str :=
  if action = LinearAction.create ∨ action = LinearAction.update then
    match body with
    | none => Except.error ()
    | some b =>
      let truncatedBody :=
        if 200 < b.length then b.take 200 ++ "\\.\\.\\.".data else b
      Except.ok ("\"".data ++ escapeMarkdown truncatedBody ++ "\"\n".data)
  else Except.ok []

/-- formatCommentMessage embeds `formatCommentMessage` (lines 530-543). -/
def formatCommentMessage (p : LinearWebhookPayload) : Except Unit Str :=
  match commentBodySegment p.action p.data.body with
  | Except.error e => Except.error e
  | Except.ok seg =>
    Except.ok ("💬 New comment by ".data ++ escapeMarkdown p.actor.name
      ++ "\n".data ++ seg)

/-- formatProjectMessage embeds `formatProjectMessage` (lines 548-556). -/
def formatProjectMessage (p : LinearWebhookPayload) : Except Unit Str :=
  match escapeMarkdownJs p.data.name with
  | Except.error e => Except.error e
  | Except.ok nm =>
    let actionStr :=
      if p.action = LinearAction.create then "New project".data
      else "Project ".data ++ actionName p.action ++ "d".data
    Except.ok ("📁 ".data ++ actionStr ++ ": ".data ++ nm ++ "\n".data
      ++ "\\- ".data ++ escapeMarkdown p.actor.name ++ "\n".data)

/-- formatGenericMessage embeds `formatGenericMessage` (lines 561-567); it
reads only the entity type, the actor's name and the action. -/
def formatGenericMessage (p : LinearWebhookPayload) : Str :=
  getEntityIcon p.type ++ " ".data ++ escapeMarkdown p.actor.name ++ " ".data
    ++ actionName p.action ++ "d a ".data ++ jsToLower (entityTypeName p.type)
    ++ "\n".data

/-- fallbackMessage embeds the `catch` branch of `formatLinearWebhookMessage`
(line 610). -/
def fallbackMessage (p : LinearWebhookPayload) : Str :=
  "❌ Error processing ".data ++ entityTypeName p.type ++ " ".data
    ++ actionName p.action ++ " from ".data ++ escapeMarkdown p.actor.name

/-- formatByType embeds the `try` body of `formatLinearWebhookMessage`
(lines 598-607): dispatch on the entity type. -/
def formatByType (fmtDate : Str → Str) (p : LinearWebhookPayload) :
    Except Unit Str :=
  match p.type with
  | LinearEntityType.Issue => formatIssueMessage fmtDate p
  | LinearEntityType.Comment => formatCommentMessage p
  | LinearEntityType.Project => formatProjectMessage p
  | _ => Except.ok (formatGenericMessage p)

/-- formatLinearWebhookMessage embeds `formatLinearWebhookMessage`
(lines 596-612): the dispatched renderer inside a `try`/`catch` whose handler
returns the fallback text. -/
def formatLinearWebhookMessage (fmtDate : Str → Str) (p : LinearWebhookPayload) : Str :=
  match formatByType fmtDate p with
  | Except.ok s => s
  | Except.error _ => fallbackMessage p

/-! ## Auxiliary specification-side predicates -/

/-- pairsOk checks every adjacent pair: a reserved character may only appear
immediately after a backslash. -/
def pairsOk : Str → Bool
  | a :: b :: rest => (!(isReserved b) || (a == '\\')) && pairsOk (b :: rest)
  | _ => true

/-- escOk holds of text in which every reserved character is immediately
preceded by a backslash (the escaping rule of the spec, section 4.2). -/
def escOk : Str → Bool
  | [] => true
  | c :: rest => !(isReserved c) && pairsOk (c :: rest)

/-- hmacConst is a concrete stand-in digest function used to instantiate the
abstract HMAC parameter in witnesses and counterexamples: every digest is the
32-byte buffer of value 7. -/
def hmacConst (_secret _rawBody : List Nat) : List Nat := List.replicate 32 7

/-! ## Hex round-trip lemmas -/

lemma hexVal_hexChar : ∀ n, n < 16 → hexVal (hexChar n) = some n := by decide

lemma hexDecode_hexEncode : ∀ bs : List Nat, (∀ b ∈ bs, b < 256) →
    hexDecode (hexEncode bs) = bs := by
  intro bs
  induction bs with
  | nil => intro _; rfl
  | cons b rest ih =>
    intro h
    have hb : b < 256 := h b (List.mem_cons_self _ _)
    have h1 : b / 16 < 16 := by omega
    have h2 : b % 16 < 16 := by omega
    have e1 := hexVal_hexChar (b / 16) h1
    have e2 := hexVal_hexChar (b % 16) h2
    have ht : hexDecode (hexEncode rest) = rest :=
      ih (fun x hx => h x (List.mem_cons_of_mem _ hx))
    simp [hexEncode, byteToHex, hexDecode, e1, e2, ht]
    omega

/-- Claim C1: for every byte sequence `B` and secret `S`, calling
`verifyLinearSignature` with the lowercase hex encoding of the HMAC-SHA256
digest of `B` under `S` as the header, `B` as the raw body and `S` as the
secret returns `true` (the digest, being a real HMAC-SHA256 output, is a byte
sequence, which the hypothesis records). -/
theorem C1_valid_signature_accepted (hmac : List Nat → List Nat → List Nat)
    (B S : List Nat) (h : ∀ b ∈ hmac S B, b < 256) :
    verifyLinearSignature hmac (some (hexEncode (hmac S B))) B S = true := by
  simp [verifyLinearSignature, timingSafeEqual, hexDecode_hexEncode _ h]

/-- Witness for C1 at a concrete digest function, body and secret. -/
theorem C1_valid_signature_accepted_witness :
    verifyLinearSignature hmacConst (some (hexEncode (hmacConst [] []))) [] [] = true :=
  C1_valid_signature_accepted hmacConst [] [] (by decide)

/-- Counterexample to claim C2 as stated: with the empty secret `[]` the first
call must, per the claim, return `false` (the secret is absent), and the second
call's header is not well-formed hexadecimal (it ends in `"zz"`), so the claim
demands `false` there too; both calls return `true`, because HMAC with an empty
key is computed normally and Node's lenient hex decoding silently drops the
trailing invalid pair. -/
theorem C2_counterexample :
    verifyLinearSignature hmacConst (some (hexEncode (hmacConst [64] [65]))) [65] [64] = true ∧
    verifyLinearSignature hmacConst
      (some (hexEncode (hmacConst [] []) ++ "zz".data)) [] [] = true := by
  constructor
  · exact C1_valid_signature_accepted hmacConst [65] [64] (by decide)
  · decide

/-- Claim C2 (amended): `verifyLinearSignature` never throws (it is a total
boolean function) and returns `true` exactly when a header is supplied whose
lenient hex decoding (Node `Buffer.from(·, 'hex')` semantics: decoding stops at
the first invalid pair) equals the computed digest; in particular it returns
`false` whenever the header is missing or its decoding has a byte length
different from the digest's, but an empty secret is not rejected and a
malformed-hex header whose valid prefix encodes the digest is accepted. -/
theorem C2_amended_verify_true_iff (hmac : List Nat → List Nat → List Nat)
    (headerSignature : Option Str) (B S : List Nat) :
    verifyLinearSignature hmac headerSignature B S = true ↔
      ∃ h, headerSignature = some h ∧ hexDecode h = hmac S B := by
  cases headerSignature with
  | none => simp [verifyLinearSignature]
  | some h =>
    simp only [verifyLinearSignature, timingSafeEqual]
    constructor
    · intro hr
      by_cases hl : (hmac S B).length = (hexDecode h).length
      · simp only [hl, if_true] at hr
        refine ⟨h, rfl, ?_⟩
        exact (of_decide_eq_true hr).symm
      · simp [hl] at hr
    · rintro ⟨h2, hh, hd⟩
      cases hh
      simp [hd]

/-- Claim C3: the freshness check accepts exactly when
`abs(now - webhookTimestamp) <= 60000`, including both boundaries, and rejects
one millisecond beyond them on either side. -/
theorem C3_freshness_window (T : Int) :
    verifyWebhookTimestamp T T = true ∧
    verifyWebhookTimestamp (T + 60000) T = true ∧
    verifyWebhookTimestamp (T - 60000) T = true ∧
    verifyWebhookTimestamp (T + 60001) T = false ∧
    verifyWebhookTimestamp (T - 60001) T = false ∧
    (∀ now : Int, verifyWebhookTimestamp now T = true ↔ (now - T).natAbs ≤ 60000) := by
  refine ⟨?_, ?_, ?_, ?_, ?_, fun now => ?_⟩ <;>
    simp only [verifyWebhookTimestamp, decide_eq_true_eq, decide_eq_false_iff_not] <;>
    omega

/-! ## Formatter lemmas -/

lemma escapeMarkdown_append (a b : Str) :
    escapeMarkdown (a ++ b) = escapeMarkdown a ++ escapeMarkdown b := by
  induction a with
  | nil => rfl
  | cons c rest ih => simp [escapeMarkdown, ih]

lemma pairsOk_cons (a : Char) (E : Str) (h : escOk E = true) :
    pairsOk (a :: E) = true := by
  cases E with
  | nil => rfl
  | cons d E2 =>
    simp only [escOk, Bool.and_eq_true, Bool.not_eq_true'] at h
    simp [pairsOk, h.1, h.2]

lemma escOk_escapeMarkdown (s : Str) : escOk (escapeMarkdown s) = true := by
  induction s with
  | nil => rfl
  | cons c rest ih =>
    by_cases hc : isReserved c = true
    · have h1 : escapeMarkdown (c :: rest) = '\\' :: c :: escapeMarkdown rest := by
        simp [escapeMarkdown, hc]
      have hbs : isReserved '\\' = false := by decide
      rw [h1]
      simp [escOk, pairsOk, hbs, pairsOk_cons c _ ih]
    · have h1 : escapeMarkdown (c :: rest) = c :: escapeMarkdown rest := by
        simp [escapeMarkdown, hc]
      rw [h1]
      simp [escOk, hc, pairsOk_cons c _ ih]

lemma prefix_intercalate (sep x : Str) (l : List Str) :
    x <+: List.intercalate sep (x :: l) := by
  cases l with
  | nil => exact ⟨[], rfl⟩
  | cons b l2 => exact ⟨sep ++ List.intercalate sep (b :: l2), rfl⟩

/-- emptyData is the payload `data` with every optional field absent. -/
def emptyData : LinearData :=
  { title := none, url := none, description := none, priority := none,
    dueDate := none, state := none, assignee := none, creator := none,
    parent := none, body := none, name := none }

/-- Claim C4: for every payload (however malformed its `data`),
`formatLinearWebhookMessage` is total and either returns the dispatched
renderer's output or, when that renderer throws, the fallback text — which
names the entity type, the action and the escaped actor name. -/
theorem C4_formatter_never_throws (fmtDate : Str → Str) (p : LinearWebhookPayload) :
    (∃ s, formatByType fmtDate p = Except.ok s ∧
      formatLinearWebhookMessage fmtDate p = s) ∨
    (formatLinearWebhookMessage fmtDate p = fallbackMessage p ∧
      entityTypeName p.type <:+: fallbackMessage p ∧
      actionName p.action <:+: fallbackMessage p ∧
      escapeMarkdown p.actor.name <:+: fallbackMessage p) := by
  cases hf : formatByType fmtDate p with
  | ok s =>
    exact Or.inl ⟨s, rfl, by simp [formatLinearWebhookMessage, hf]⟩
  | error e =>
    refine Or.inr ⟨by simp [formatLinearWebhookMessage, hf], ?_, ?_, ?_⟩
    · refine ⟨"❌ Error processing ".data,
        " ".data ++ actionName p.action ++ " from ".data
          ++ escapeMarkdown p.actor.name, ?_⟩
      simp [fallbackMessage, List.append_assoc]
    · refine ⟨"❌ Error processing ".data ++ entityTypeName p.type ++ " ".data,
        " from ".data ++ escapeMarkdown p.actor.name, ?_⟩
      simp [fallbackMessage, List.append_assoc]
    · refine ⟨"❌ Error processing ".data ++ entityTypeName p.type ++ " ".data
        ++ actionName p.action ++ " from ".data, [], ?_⟩
      simp [fallbackMessage, List.append_assoc]

lemma updHasStateKey_of_prevStateName (p : LinearWebhookPayload) (pn : Str)
    (h : prevStateName p = some pn) : updHasStateKey p = true := by
  unfold prevStateName at h
  unfold updHasStateKey
  cases hU : p.updatedFrom with
  | none => rw [hU] at h; simp at h
  | some r =>
    rw [hU] at h
    cases hs : r.state with
    | none => simp [hs] at h
    | some os => simp [hs]

/-- payloadNullPrevState is an Issue-update payload whose issue has state
"Todo" while `updatedFrom` carries a `'state'` key with a null value. -/
def payloadNullPrevState : LinearWebhookPayload :=
  { action := LinearAction.update
    type := LinearEntityType.Issue
    actor := { name := "A".data }
    data := { emptyData with
      title := some ("T".data)
      url := some ("u".data)
      state := some { name := some ("Todo".data) } }
    updatedFrom := some { state := some none } }

/-- Counterexample to claim C5 as stated: in `payloadNullPrevState` the action
is update and the issue has a state named "Todo", but `updatedFrom`'s `state`
entry is null, so no transition can be rendered; the claim then requires the
current state name alone, yet the renderer emits no status fragment at all —
the full message does not contain "Todo" anywhere. -/
theorem C5_counterexample :
    formatIssueMessage (fun d => d) payloadNullPrevState =
      Except.ok ("🔄 Issue updated\n[T](u) \\- A\n".data) ∧
    ¬ ("Todo".data <:+: "🔄 Issue updated\n[T](u) \\- A\n".data) := by
  constructor
  · decide
  · decide

/-- Claim C5 (amended): in the issue renderer the status fragment is the
escaped transition `\[previous\] \-\> \[current\]` exactly when the action is
update and `updatedFrom` holds a `'state'` entry that is a truthy object with a
truthy (defined, non-empty) name; when the action is not update or
`updatedFrom` has no `'state'` entry, the current state name alone is rendered;
but when the action is update and the `'state'` entry is present while null or
lacking a truthy name, the status fragment is omitted even though the issue has
a state; and it is omitted when the issue has no state. -/
theorem C5_amended_status (p : LinearWebhookPayload) :
    (p.data.state = none → statusPart p = Except.ok []) ∧
    (∀ st cur, p.data.state = some st → st.name = some cur →
      ((∀ pn, p.action = LinearAction.update → prevStateName p = some pn →
          statusPart p = Except.ok ["\\[".data ++ escapeMarkdown pn
            ++ "\\] \\-\\> \\[".data ++ escapeMarkdown cur ++ "\\]".data]) ∧
       (¬ (p.action = LinearAction.update ∧ updHasStateKey p = true) →
          statusPart p = Except.ok [escapeMarkdown cur]) ∧
       (p.action = LinearAction.update → updHasStateKey p = true →
          prevStateName p = none → statusPart p = Except.ok []))) := by
  constructor
  · intro h
    simp [statusPart, h]
  · intro st cur hst hcur
    refine ⟨?_, ?_, ?_⟩
    · intro pn ha hpn
      have hk := updHasStateKey_of_prevStateName p pn hpn
      simp [statusPart, hst, ha, hk, hpn, hcur, escapeMarkdownJs]
    · intro hneg
      simp [statusPart, hst, hcur, escapeMarkdownJs, if_neg hneg]
    · intro ha hk hpn
      simp [statusPart, hst, ha, hk, hpn]

/-- payloadPrevTodo is the spec scenario: an Issue update from state "Todo" to
state "In Progress". -/
def payloadPrevTodo : LinearWebhookPayload :=
  { action := LinearAction.update
    type := LinearEntityType.Issue
    actor := { name := "A".data }
    data := { emptyData with
      title := some ("T".data)
      state := some { name := some ("In Progress".data) } }
    updatedFrom := some { state := some (some { name := some ("Todo".data) }) } }

/-- Witness for the amended C5 at the spec's own scenario: the transition
renders as escaped "[Todo] -> [In Progress]". -/
theorem C5_amended_status_witness :
    statusPart payloadPrevTodo =
      Except.ok ["\\[Todo\\] \\-\\> \\[In Progress\\]".data] := by
  have h := ((C5_amended_status payloadPrevTodo).2
    { name := some ("In Progress".data) } ("In Progress".data)
    (by decide) (by decide)).1 ("Todo".data) (by decide) (by decide)
  exact h.trans (by decide)

/-- Claim C6: an issue-create description longer than 300 characters renders as
the escape of exactly its first 300 characters followed by the ellipsis marker
`\.\.\.` (the `...` appended before escaping, so the marker itself satisfies
the escaping rule); a comment body longer than 200 characters on create or
update renders as the escape of exactly its first 200 characters followed by
the marker `\\.\\.\\.` (the pre-escaped `\.\.\.` of the source, escaped again
with the excerpt — still every dot is preceded by a backslash); texts at or
under the limit render verbatim after escaping. -/
theorem C6_truncation :
    (∀ d : Str, 300 < d.length →
      issueDescriptionSegment LinearAction.create (some d) =
        "\n".data ++ escapeMarkdown (d.take 300) ++ "\\.\\.\\.".data ++ "\n".data) ∧
    (∀ d : Str, d ≠ [] → d.length ≤ 300 →
      issueDescriptionSegment LinearAction.create (some d) =
        "\n".data ++ escapeMarkdown d ++ "\n".data) ∧
    (∀ action, action = LinearAction.create ∨ action = LinearAction.update →
      (∀ b : Str, 200 < b.length →
        commentBodySegment action (some b) =
          Except.ok ("\"".data ++ escapeMarkdown (b.take 200)
            ++ "\\\\.\\\\.\\\\.".data ++ "\"\n".data)) ∧
      (∀ b : Str, b.length ≤ 200 →
        commentBodySegment action (some b) =
          Except.ok ("\"".data ++ escapeMarkdown b ++ "\"\n".data))) ∧
    escOk ("\\.\\.\\.".data) = true ∧ escOk ("\\\\.\\\\.\\\\.".data) = true := by
  have edots : escapeMarkdown ("...".data) = "\\.\\.\\.".data := by decide
  have ebdots : escapeMarkdown ("\\.\\.\\.".data) = "\\\\.\\\\.\\\\.".data := by decide
  refine ⟨?_, ?_, ?_, by decide, by decide⟩
  · intro d hd
    have hne : d ≠ [] := by
      intro h
      rw [h] at hd
      simp at hd
    simp [issueDescriptionSegment, hne, hd, escapeMarkdown_append, edots,
      List.append_assoc]
  · intro d hne hd
    have hd2 : ¬ (300 < d.length) := by omega
    simp [issueDescriptionSegment, hne, hd2]
  · intro action hact
    constructor
    · intro b hb
      have hc : action = LinearAction.create ∨ action = LinearAction.update := hact
      simp [commentBodySegment, hc, hb, escapeMarkdown_append, ebdots,
        List.append_assoc]
    · intro b hb
      have hb2 : ¬ (200 < b.length) := by omega
      simp [commentBodySegment, hact, hb2]

/-- Witness for C6 at concrete over- and under-limit texts. -/
theorem C6_truncation_witness :
    issueDescriptionSegment LinearAction.create (some (List.replicate 301 'a')) =
      "\n".data ++ escapeMarkdown ((List.replicate 301 'a').take 300)
        ++ "\\.\\.\\.".data ++ "\n".data ∧
    commentBodySegment LinearAction.update (some (List.replicate 201 'b')) =
      Except.ok ("\"".data ++ escapeMarkdown ((List.replicate 201 'b').take 200)
        ++ "\\\\.\\\\.\\\\.".data ++ "\"\n".data) :=
  ⟨C6_truncation.1 (List.replicate 301 'a')
     (by simp only [List.length_replicate]; omega),
   (C6_truncation.2.2.1 LinearAction.update (Or.inr rfl)).1
     (List.replicate 201 'b') (by simp only [List.length_replicate]; omega)⟩

/-- Claim C7: `escapeMarkdown` prefixes a backslash to every occurrence of
every character of the reserved set; its output never contains a reserved
character that is not immediately preceded by a backslash; and in the rendered
issue message the title appears as escaped anchor text while the hyperlink URL
is interpolated raw (unescaped), alongside the escaped creator name. -/
theorem C7_escaping :
    (∀ c, c ∈ ("_*[]()~`>#+=|\x7b\x7d.!-".data) →
      ∀ s, escapeMarkdown (c :: s) = '\\' :: c :: escapeMarkdown s) ∧
    (∀ s, escOk (escapeMarkdown s) = true) ∧
    (∀ fmtDate p t m, p.data.title = some t →
      formatIssueMessage fmtDate p = Except.ok m →
      ∃ pre post, m = pre ++ ("[".data ++ escapeMarkdown t ++ "](".data
        ++ jsStr p.data.url ++ ") \\- ".data ++ escapeMarkdown (creatorNameOf p)
        ++ "\n".data) ++ post) := by
  refine ⟨?_, escOk_escapeMarkdown, ?_⟩
  · intro c hc s
    have hr : isReserved c = true := by
      simp [isReserved]
      simp at hc
      tauto
    simp [escapeMarkdown, hr]
  · intro fmtDate p t m ht hm
    unfold formatIssueMessage at hm
    rw [ht] at hm
    simp only [escapeMarkdownJs] at hm
    cases hps : parentSegment p.data.parent with
    | error e => rw [hps] at hm; simp at hm
    | ok parentSeg =>
      rw [hps] at hm
      cases hmd : issueMetadata fmtDate p with
      | error e => rw [hmd] at hm; simp at hm
      | ok metadata =>
        rw [hmd] at hm
        cases has : assigneeSegment p.data.assignee with
        | error e => rw [has] at hm; simp at hm
        | ok assigneeSeg =>
          rw [has] at hm
          simp only [Except.ok.injEq] at hm
          refine ⟨issueActionText p ++ "\n".data,
            parentSeg ++ issueMetadataSegment metadata ++ assigneeSeg
              ++ issueDescriptionSegment p.action p.data.description, ?_⟩
          rw [← hm]
          simp [issueTitleLine, List.append_assoc]

/-- payloadTitled is a plain Issue-create payload with title "a_b". -/
def payloadTitled : LinearWebhookPayload :=
  { action := LinearAction.create
    type := LinearEntityType.Issue
    actor := { name := "A".data }
    data := { emptyData with title := some ("a_b".data), url := some ("u".data) }
    updatedFrom := none }

/-- Witness for C7 on a concrete payload: the reserved `_` of the title is
escaped in the rendered message while the URL stays raw. -/
theorem C7_escaping_witness :
    escapeMarkdown ("a_b".data) = "a\\_b".data ∧
    ∃ pre post, "🎯 New issue\n[a\\_b](u) \\- A\n".data =
      pre ++ ("[".data ++ escapeMarkdown ("a_b".data) ++ "](".data
        ++ jsStr payloadTitled.data.url ++ ") \\- ".data
        ++ escapeMarkdown (creatorNameOf payloadTitled) ++ "\n".data) ++ post :=
  ⟨by decide,
   C7_escaping.2.2 (fun d => d) payloadTitled ("a_b".data)
     ("🎯 New issue\n[a\\_b](u) \\- A\n".data) (by decide) (by decide)⟩

/-- Claim C8: when the parent (with a title) is present and the issue message
renders, the header is overridden to the sub-issue label on create, and the
"↳ Parent: <escaped title>" line sits between the title line and the metadata
line (with assignee and description segments only after the metadata). -/
theorem C8_subissue_header_and_parent_line (fmtDate : Str → Str)
    (p : LinearWebhookPayload) (par : LinearParent) (pt m : Str)
    (hp : p.data.parent = some par) (ht : par.title = some pt)
    (hm : formatIssueMessage fmtDate p = Except.ok m) :
    (p.action = LinearAction.create →
      issueActionText p = "🔗 New sub-issue".data) ∧
    ∃ t metadata assigneeSeg,
      p.data.title = some t ∧
      issueMetadata fmtDate p = Except.ok metadata ∧
      assigneeSegment p.data.assignee = Except.ok assigneeSeg ∧
      m = issueActionText p ++ "\n".data ++ issueTitleLine p (escapeMarkdown t)
        ++ ("↳ Parent: ".data ++ escapeMarkdown pt ++ "\n".data)
        ++ issueMetadataSegment metadata ++ assigneeSeg
        ++ issueDescriptionSegment p.action p.data.description := by
  constructor
  · intro ha
    simp [issueActionText, ha, hp]
  · unfold formatIssueMessage at hm
    cases htl : p.data.title with
    | none => rw [htl] at hm; simp [escapeMarkdownJs] at hm
    | some t =>
      rw [htl] at hm
      simp only [escapeMarkdownJs] at hm
      have hps : parentSegment p.data.parent =
          Except.ok ("↳ Parent: ".data ++ escapeMarkdown pt ++ "\n".data) := by
        simp [parentSegment, hp, ht, escapeMarkdownJs]
      rw [hps] at hm
      cases hmd : issueMetadata fmtDate p with
      | error e => rw [hmd] at hm; simp at hm
      | ok metadata =>
        rw [hmd] at hm
        cases has : assigneeSegment p.data.assignee with
        | error e => rw [has] at hm; simp at hm
        | ok assigneeSeg =>
          rw [has] at hm
          simp only [Except.ok.injEq] at hm
          refine ⟨t, metadata, assigneeSeg, rfl, rfl, rfl, ?_⟩
          rw [← hm]

/-- payloadSubIssue is the spec scenario: an Issue create with a parent. -/
def payloadSubIssue : LinearWebhookPayload :=
  { action := LinearAction.create
    type := LinearEntityType.Issue
    actor := { name := "A".data }
    data := { emptyData with
      title := some ("T".data)
      url := some ("u".data)
      parent := some { title := some ("P".data) }
      state := some { name := some ("Todo".data) } }
    updatedFrom := none }

/-- Witness for C8 at the concrete sub-issue payload. -/
theorem C8_subissue_witness :
    (payloadSubIssue.action = LinearAction.create →
      issueActionText payloadSubIssue = "🔗 New sub-issue".data) ∧
    ∃ t metadata assigneeSeg,
      payloadSubIssue.data.title = some t ∧
      issueMetadata (fun d => d) payloadSubIssue = Except.ok metadata ∧
      assigneeSegment payloadSubIssue.data.assignee = Except.ok assigneeSeg ∧
      "🔗 New sub-issue\n[T](u) \\- A\n↳ Parent: P\nTodo\n".data =
        issueActionText payloadSubIssue ++ "\n".data
        ++ issueTitleLine payloadSubIssue (escapeMarkdown t)
        ++ ("↳ Parent: ".data ++ escapeMarkdown ("P".data) ++ "\n".data)
        ++ issueMetadataSegment metadata ++ assigneeSeg
        ++ issueDescriptionSegment payloadSubIssue.action
            payloadSubIssue.data.description :=
  C8_subissue_header_and_parent_line (fun d => d) payloadSubIssue
    { title := some ("P".data) } ("P".data)
    ("🔗 New sub-issue\n[T](u) \\- A\n↳ Parent: P\nTodo\n".data)
    (by decide) (by decide) (by decide)

/-- Claim C9: for entity types other than Issue, Comment and Project, the
rendered message never depends on the payload's `data` (nor on `updatedFrom`):
two payloads agreeing on type, action and actor render identically, and the
output is the generic single-line message. -/
theorem C9_generic_ignores_data (fmtDate : Str → Str)
    (p1 p2 : LinearWebhookPayload)
    (ht : p1.type = p2.type) (ha : p1.action = p2.action) (hc : p1.actor = p2.actor)
    (h1 : p1.type ≠ LinearEntityType.Issue)
    (h2 : p1.type ≠ LinearEntityType.Comment)
    (h3 : p1.type ≠ LinearEntityType.Project) :
    formatLinearWebhookMessage fmtDate p1 = formatLinearWebhookMessage fmtDate p2 ∧
    formatLinearWebhookMessage fmtDate p1 = formatGenericMessage p1 := by
  have hg : formatGenericMessage p1 = formatGenericMessage p2 := by
    simp [formatGenericMessage, ht, ha, hc]
  have hb1 : formatByType fmtDate p1 = Except.ok (formatGenericMessage p1) := by
    unfold formatByType
    cases htt : p1.type <;> simp_all
  have h1b : p2.type ≠ LinearEntityType.Issue := by rw [← ht]; exact h1
  have h2b : p2.type ≠ LinearEntityType.Comment := by rw [← ht]; exact h2
  have h3b : p2.type ≠ LinearEntityType.Project := by rw [← ht]; exact h3
  have hb2 : formatByType fmtDate p2 = Except.ok (formatGenericMessage p2) := by
    unfold formatByType
    cases htt : p2.type <;> simp_all
  constructor
  · simp [formatLinearWebhookMessage, hb1, hb2, hg]
  · simp [formatLinearWebhookMessage, hb1]

/-- payloadLabelA is an IssueLabel payload with empty data. -/
def payloadLabelA : LinearWebhookPayload :=
  { action := LinearAction.create
    type := LinearEntityType.IssueLabel
    actor := { name := "A".data }
    data := emptyData
    updatedFrom := none }

/-- payloadLabelB agrees with payloadLabelA except for an arbitrarily different
`data`. -/
def payloadLabelB : LinearWebhookPayload :=
  { payloadLabelA with
    data := { emptyData with
      title := some ("X".data)
      body := some ("Y".data)
      priority := some 3 } }

/-- Witness for C9 at two concrete IssueLabel payloads differing in data. -/
theorem C9_generic_ignores_data_witness :
    formatLinearWebhookMessage (fun d => d) payloadLabelA =
      formatLinearWebhookMessage (fun d => d) payloadLabelB ∧
    formatLinearWebhookMessage (fun d => d) payloadLabelA =
      formatGenericMessage payloadLabelA :=
  C9_generic_ignores_data (fun d => d) payloadLabelA payloadLabelB
    (by decide) (by decide) (by decide) (by decide) (by decide) (by decide)

/-- Claim C10: an issue priority strictly greater than 4 passes the positivity
guard and falls through to the default label, so the metadata holds the
fragment "Priority: No priority" (whose escape is itself), and every rendered
issue message for such a payload contains that fragment. -/
theorem C10_priority_above_range_kept (fmtDate : Str → Str)
    (p : LinearWebhookPayload) (pr : Int)
    (hpr : p.data.priority = some pr) (h4 : 4 < pr) :
    priorityPart p.data = ["Priority: No priority".data] ∧
    (∀ m, formatIssueMessage fmtDate p = Except.ok m →
      "Priority: No priority".data <:+: m) := by
  have hlab : getPriorityLabel pr = "No priority".data := by
    rw [getPriorityLabel.eq_def]
    split <;> first | rfl | omega
  have hcond : pr ≠ 0 ∧ 0 < pr := ⟨by omega, by omega⟩
  have hesc : escapeMarkdown ("No priority".data) = "No priority".data := by decide
  have hpp : priorityPart p.data = ["Priority: No priority".data] := by
    simp only [priorityPart, hpr]
    rw [if_pos hcond, hlab, hesc]
    decide
  refine ⟨hpp, ?_⟩
  intro m hm
  unfold formatIssueMessage at hm
  cases htl : p.data.title with
  | none => rw [htl] at hm; simp [escapeMarkdownJs] at hm
  | some t =>
    rw [htl] at hm
    simp only [escapeMarkdownJs] at hm
    cases hps : parentSegment p.data.parent with
    | error e => rw [hps] at hm; simp at hm
    | ok parentSeg =>
      rw [hps] at hm
      cases hmd : issueMetadata fmtDate p with
      | error e => rw [hmd] at hm; simp at hm
      | ok metadata =>
        rw [hmd] at hm
        cases has : assigneeSegment p.data.assignee with
        | error e => rw [has] at hm; simp at hm
        | ok assigneeSeg =>
          rw [has] at hm
          simp only [Except.ok.injEq] at hm
          unfold issueMetadata at hmd
          cases hsp : statusPart p with
          | error e => rw [hsp] at hmd; simp at hmd
          | ok statusFrags =>
            rw [hsp] at hmd
            simp only [Except.ok.injEq] at hmd
            have hmeta : metadata = "Priority: No priority".data
                :: (duePart fmtDate p.data ++ statusFrags) := by
              rw [← hmd, hpp]
              rfl
            obtain ⟨tail0, htail⟩ := prefix_intercalate (" • ".data)
              ("Priority: No priority".data)
              (duePart fmtDate p.data ++ statusFrags)
            have hseg : issueMetadataSegment metadata =
                "Priority: No priority".data ++ tail0 ++ "\n".data := by
              rw [hmeta]
              simp only [issueMetadataSegment]
              rw [if_pos (by simp)]
              rw [← htail]
            refine ⟨issueActionText p ++ "\n".data
              ++ issueTitleLine p (escapeMarkdown t) ++ parentSeg,
              tail0 ++ "\n".data ++ assigneeSeg
                ++ issueDescriptionSegment p.action p.data.description, ?_⟩
            rw [← hm, hseg]
            simp [List.append_assoc]

/-- payloadPriority5 is an Issue-create payload with out-of-range priority 5. -/
def payloadPriority5 : LinearWebhookPayload :=
  { action := LinearAction.create
    type := LinearEntityType.Issue
    actor := { name := "A".data }
    data := { emptyData with title := some ("T".data), priority := some 5 }
    updatedFrom := none }

/-- Witness for C10 at priority 5. -/
theorem C10_priority_above_range_kept_witness :
    priorityPart payloadPriority5.data = ["Priority: No priority".data] ∧
    (∀ m, formatIssueMessage (fun d => d) payloadPriority5 = Except.ok m →
      "Priority: No priority".data <:+: m) :=
  C10_priority_above_range_kept (fun d => d) payloadPriority5 5
    (by decide) (by decide)

end LinearTracker
